import Mathlib

/-!
# Verification of the webhook dispatch-and-publish pipeline

Shallow embedding of `src/webhook_handler.rs` of `rustin_bot_publisher`:
a webhook handler that classifies an inbound Telegram-style JSON payload
by command and publishes a `RabbitMessage` to one of three RabbitMQ
queues, drawing channels from a round-robin `ChannelPool`.

Modelling conventions:
* `serde_json::Value` becomes the inductive `Json`; indexing with
  `value["key"]` (which yields `Null` on missing keys and non-objects)
  becomes `Json.get`.
* Rust `i64` values live in `Int`; `Value::as_i64` checks the `i64`
  range explicitly.
* The broker is an oracle `broker : String → RabbitMessage → Bool`
  telling whether a given `basic_publish` call succeeds; every publish
  attempt is recorded in an explicit log, so "performs no publish"
  is "the log is empty".
* The async channel pool (`Mutex<Cycle<IntoIter<Arc<Channel>>>>`) is
  modelled by `CycleIter`, mirroring `Iterator::cycle`'s state (the
  original list plus the remainder of the current pass); concurrency
  collapses to the sequence of calls entering the critical section,
  which is exactly the spec's "round-robin over call order".
-/

set_option autoImplicit false

namespace RustinBot

/-- `serde_json::Value`: null, booleans, numbers, strings, arrays,
objects.  Integral numbers carry their exact value; `flt` stands for a
number with no integral `i64` reading (e.g. a float), on which
`as_i64` yields `None`. -/
inductive Json where
  | null : Json
  | bool (b : Bool) : Json
  | int (n : Int) : Json
  | flt : Json
  | str (s : String) : Json
  | arr (elems : List Json) : Json
  | obj (fields : List (String × Json)) : Json

/-- `value["key"]`: on an object, the value bound to `key` (`null` when
absent); on anything else, `null` — `serde_json`'s `Index<&str>` for
`Value` never fails. -/
def Json.get (j : Json) (key : String) : Json :=
  match j with
  | .obj fields => ((fields.find? (fun f => f.1 = key)).map Prod.snd).getD Json.null
  | _ => Json.null

/-- `Value::as_i64`: some integer in the `i64` range, else `None`. -/
def Json.as_i64 (j : Json) : Option Int :=
  match j with
  | .int n => if -(2 ^ 63) ≤ n ∧ n < 2 ^ 63 then some n else none
  | _ => none

/-- `Value::as_str`. -/
def Json.as_str (j : Json) : Option String :=
  match j with
  | .str s => some s
  | _ => none

/-- `Value::as_array`. -/
def Json.as_array (j : Json) : Option (List Json) :=
  match j with
  | .arr elems => some elems
  | _ => none

/-- HTTP statuses the handler can produce: `Ok(StatusCode::OK)`,
`Err(StatusCode::BAD_REQUEST)`, `Err(StatusCode::INTERNAL_SERVER_ERROR)`. -/
inductive Status where
  | ok : Status
  | badRequest : Status
  | internalServerError : Status
  deriving DecidableEq, Repr

/-- The outbound message `struct RabbitMessage { chat_id: i64, text: String }`. -/
structure RabbitMessage where
  chat_id : Int
  text : String
  deriving DecidableEq, Repr

/-- `serde_json::to_vec(&message)`: the JSON document written to the
broker.  Serialization of this fixed two-field shape never fails, so it
is total here. -/
def serializeRabbit (m : RabbitMessage) : Json :=
  Json.obj [("chat_id", Json.int m.chat_id), ("text", Json.str m.text)]

/-- A record of one `basic_publish` attempt: destination queue name and
the message submitted. -/
abbrev PublishLog := List (String × RabbitMessage)

/-- The broker oracle: whether a given publish call succeeds. -/
abbrev Broker := String → RabbitMessage → Bool

/-! ## Payload extractors -/

/-- `extract_chat_id`: `payload["message"]["chat"]["id"].as_i64()`. -/
def extract_chat_id (payload : Json) : Option Int :=
  (((payload.get "message").get "chat").get "id").as_i64

/-- `extract_caption`: `payload["message"]["caption"].as_str()`. -/
def extract_caption (payload : Json) : Option String :=
  ((payload.get "message").get "caption").as_str

/-- `extract_text`: `payload["message"]["text"].as_str()`. -/
def extract_text (payload : Json) : Option String :=
  ((payload.get "message").get "text").as_str

/-- The key of one photo variant: `p["width"].as_i64().unwrap_or(0)`. -/
def widthKey (p : Json) : Int :=
  ((p.get "width").as_i64).getD 0

/-- One step of Rust `Iterator::max_by_key`'s underlying `reduce`:
`cmp::max_by` keeps the accumulator only when its key is strictly
greater, so on ties the later element wins ("if several elements are
equally maximum, the last element is returned"). -/
def maxStep (f : Json → Int) (acc y : Json) : Json :=
  if f y < f acc then acc else y

/-- `iter.max_by_key(f)`: `None` on an empty iterator, otherwise the
last element attaining the maximal key. -/
def maxByKey (f : Json → Int) : List Json → Option Json
  | [] => none
  | x :: xs => some (xs.foldl (maxStep f) x)

/-- `extract_largest_image_file_id`: take the `photo` array, pick the
element of maximal `width` (missing widths count as 0), and read its
`file_id` string. -/
def extract_largest_image_file_id (payload : Json) : Option String :=
  (((payload.get "message").get "photo").as_array).bind (fun photos =>
    (maxByKey widthKey photos).bind (fun photo => (photo.get "file_id").as_str))

/-! ## Rust string helpers used by `/songlinks` and dispatch -/

/-- Rust `str::starts_with(pat)` for a string pattern: a byte prefix of
valid UTF-8, i.e. a character-list prefix. -/
def rustStartsWith (s pat : String) : Bool :=
  pat.toList.isPrefixOf s.toList

/-- Close a `"\n"`-terminated line held in reverse: the terminator also
consumes one directly preceding `"\r"` (the `"\r\n"` line ending). -/
def finishLine (acc : List Char) : List Char :=
  match acc with
  | c :: rest => if c = '\r' then rest.reverse else acc.reverse
  | [] => []

/-- Splitter behind `rustLines`; `acc` holds the current line reversed.
A final segment not terminated by `"\n"` keeps a trailing `"\r"` and is
dropped when empty (the optional final line ending). -/
def rustLinesAux (acc : List Char) : List Char → List (List Char)
  | [] =>
    match acc with
    | [] => []
    | _ => [acc.reverse]
  | c :: rest =>
    if c = '\n' then finishLine acc :: rustLinesAux [] rest
    else rustLinesAux (c :: acc) rest

/-- Rust `str::lines`: lines split at `"\n"` or `"\r\n"`, terminators
excluded, final terminator optional. -/
def rustLines (s : String) : List String :=
  (rustLinesAux [] s.toList).map List.asString

/-- `line.chars().take(n).collect::<String>()`: truncation counted in
characters (Unicode scalar values), not bytes. -/
def takeChars (n : Nat) (line : String) : String :=
  ((line.toList).take n).asString

/-! ## Publishing and the command handlers -/

/-- `publish_to_queue`: serialize (total for this shape), acquire a
channel, and call `basic_publish` once; a broker failure maps to
`INTERNAL_SERVER_ERROR`.  The attempt is logged whether or not it
succeeds. -/
def publish_to_queue (broker : Broker) (queue_name : String)
    (message : RabbitMessage) : Except Status Unit × PublishLog :=
  (if broker queue_name message then Except.ok () else Except.error Status.internalServerError,
   [(queue_name, message)])

/-- `handle_readimage`: publish the largest image's `file_id` to the
`ImageToText` queue, or fail with `BAD_REQUEST` when no file id is
extractable. -/
def handle_readimage (broker : Broker) (chat_id : Int) (payload : Json) :
    Except Status Unit × PublishLog :=
  match extract_largest_image_file_id payload with
  | some file_id =>
      publish_to_queue broker "ImageToText" { chat_id := chat_id, text := file_id }
  | none => (Except.error Status.badRequest, [])

/-- The fixed help string sent by `/help`. -/
def helpMessageText : String :=
  "Type /songlinks, followed by up to 10 lines of song titles to get download links.\n/readimage with an attached image, to get the text from the image.\n/donate to get a QR code."

/-- `handle_help_command`: publish the fixed help string to the `Reply`
queue. -/
def handle_help_command (broker : Broker) (chat_id : Int) :
    Except Status Unit × PublishLog :=
  publish_to_queue broker "Reply" { chat_id := chat_id, text := helpMessageText }

/-- `handle_songlinks`: drop the command line, keep at most the next 10
lines, truncate each to 50 characters, join with newlines, publish to
the `Music` queue. -/
def handle_songlinks (broker : Broker) (chat_id : Int) (text : String) :
    Except Status Unit × PublishLog :=
  let truncated_songs := (((rustLines text).drop 1).take 10).map (takeChars 50)
  publish_to_queue broker "Music"
    { chat_id := chat_id, text := String.intercalate "\n" truncated_songs }

/-- Lift a handler result to the handler function's `Result<StatusCode,
StatusCode>`: `handle_x(..).await?` propagates an `Err` status, and the
fall-through returns `Ok(StatusCode::OK)`. -/
def finishWith (r : Except Status Unit × PublishLog) : Status × PublishLog :=
  match r with
  | (Except.ok _, log) => (Status.ok, log)
  | (Except.error e, log) => (e, log)

/-- `receive_message`: the dispatch entry point.  Missing chat id is a
hard `BAD_REQUEST`; a caption is checked against `/readimage` (anything
else is a no-op); otherwise the text is checked against `/help` and the
`/songlinks` prefix; unmatched shapes return `OK` with no publish. -/
def receive_message (broker : Broker) (payload : Json) : Status × PublishLog :=
  match extract_chat_id payload with
  | none => (Status.badRequest, [])
  | some chat_id =>
    match extract_caption payload with
    | some command =>
        if command = "/readimage" then
          finishWith (handle_readimage broker chat_id payload)
        else (Status.ok, [])
    | none =>
      match extract_text payload with
      | some text =>
          if text = "/help" then
            finishWith (handle_help_command broker chat_id)
          else if rustStartsWith text "/songlinks" then
            finishWith (handle_songlinks broker chat_id text)
          else (Status.ok, [])
      | none => (Status.ok, [])

/-! ## The round-robin channel pool -/

/-- State of `channels.into_iter().cycle()`: the original list (cloned
to restart each pass) and the remainder of the current pass.  `α` is the
handle type (`Arc<Channel>` in the source), kept abstract. -/
structure CycleIter (α : Type) where
  orig : List α
  cur : List α
  deriving DecidableEq, Repr

/-- `ChannelPool::new(channels)`: wrap the cycling iterator, starting a
fresh pass over the whole list. -/
def channelPoolNew {α : Type} (channels : List α) : CycleIter α :=
  { orig := channels, cur := channels }

/-- `Cycle::next`: take from the current pass; when exhausted, restart
from the original list — which yields `None` exactly when the original
list is empty.  Returns the drawn handle and the advanced state. -/
def cycleNext {α : Type} (it : CycleIter α) : Option α × CycleIter α :=
  match it.cur with
  | x :: rest => (some x, { it with cur := rest })
  | [] =>
    match it.orig with
    | [] => (none, it)
    | x :: rest => (some x, { it with cur := rest })

/-- Pool state after `n` completed `get_next_channel` calls. -/
def runCalls {α : Type} (it : CycleIter α) : Nat → CycleIter α
  | 0 => it
  | n + 1 => runCalls (cycleNext it).2 n

/-- The handle produced by call number `n + 1` (0-indexed `n`):
`get_next_channel` draws from the iterator under the mutex, so call
order is exactly iterator order.  `none` models the
"Channel pool should never be empty" panic. -/
def callResult {α : Type} (it : CycleIter α) (n : Nat) : Option α :=
  (cycleNext (runCalls it n)).1

/-! ## Concrete payloads and brokers used as test vectors -/

/-- A broker on which every publish succeeds. -/
def alwaysOk : Broker := fun _ _ => true

/-- A broker on which every publish fails. -/
def alwaysFail : Broker := fun _ _ => false

/-- A `/help` text message from chat 7. -/
def helpPayload : Json :=
  Json.obj [("message", Json.obj
    [("chat", Json.obj [("id", Json.int 7)]), ("text", Json.str "/help")])]

/-- A `/songlinks` message with two song lines from chat 7. -/
def songPayload : Json :=
  Json.obj [("message", Json.obj
    [("chat", Json.obj [("id", Json.int 7)]),
     ("text", Json.str "/songlinks\nsong one\nsong two")])]

/-- An unrecognized plain-text message from chat 3. -/
def plainTextPayload : Json :=
  Json.obj [("message", Json.obj
    [("chat", Json.obj [("id", Json.int 3)]), ("text", Json.str "hello")])]

/-- A photo variant of width 100 with file id `first`. -/
def photoFirst : Json :=
  Json.obj [("width", Json.int 100), ("file_id", Json.str "first")]

/-- A photo variant of width 100 with file id `second`. -/
def photoSecond : Json :=
  Json.obj [("width", Json.int 100), ("file_id", Json.str "second")]

/-- A `/readimage` payload whose two photo variants tie on width. -/
def tiePayload : Json :=
  Json.obj [("message", Json.obj
    [("chat", Json.obj [("id", Json.int 1)]),
     ("caption", Json.str "/readimage"),
     ("photo", Json.arr [photoFirst, photoSecond])])]

/-- A photo variant carrying a file id but no `width` field at all. -/
def photoNoWidth : Json :=
  Json.obj [("file_id", Json.str "abc")]

/-- A `/readimage` payload whose only photo variant has no width. -/
def noWidthPayload : Json :=
  Json.obj [("message", Json.obj
    [("chat", Json.obj [("id", Json.int 1)]),
     ("caption", Json.str "/readimage"),
     ("photo", Json.arr [photoNoWidth])])]

/-- A `/readimage` payload with an empty photo array. -/
def emptyPhotoPayload : Json :=
  Json.obj [("message", Json.obj
    [("chat", Json.obj [("id", Json.int 1)]),
     ("caption", Json.str "/readimage"),
     ("photo", Json.arr [])])]

/-! ## Claim theorems -/

/-- C4: a payload without an integer `message.chat.id` is rejected with
`BAD_REQUEST` and nothing is published, whatever the other fields hold
and however the broker behaves. -/
theorem missing_chat_id_rejected (broker : Broker) (payload : Json)
    (h : extract_chat_id payload = none) :
    receive_message broker payload = (Status.badRequest, []) := by
  simp [receive_message, h]

/-- Witness for C4: the empty JSON object has no chat id and is
rejected without a publish. -/
theorem missing_chat_id_rejected_witness :
    extract_chat_id (Json.obj []) = none ∧
    receive_message alwaysOk (Json.obj []) = (Status.badRequest, []) :=
  ⟨rfl, missing_chat_id_rejected alwaysOk (Json.obj []) rfl⟩

/-- C6: a captionless payload with text exactly `/help` publishes the
fixed help string (listing `/songlinks`, `/readimage` and `/donate`) to
the `Reply` queue, for every chat id. -/
theorem help_publishes_fixed_text (broker : Broker) (payload : Json) (chat_id : Int)
    (hid : extract_chat_id payload = some chat_id)
    (hcap : extract_caption payload = none)
    (htext : extract_text payload = some "/help") :
    receive_message broker payload =
      ((if broker "Reply" { chat_id := chat_id, text := helpMessageText } then Status.ok
        else Status.internalServerError),
       [("Reply", { chat_id := chat_id, text := helpMessageText })]) := by
  by_cases hb : broker "Reply" { chat_id := chat_id, text := helpMessageText } = true
  · simp [receive_message, hid, hcap, htext, handle_help_command, publish_to_queue,
      finishWith, hb]
  · simp only [Bool.not_eq_true] at hb
    simp [receive_message, hid, hcap, htext, handle_help_command, publish_to_queue,
      finishWith, hb]

/-- Witness for C6: the `/help` payload from chat 7, on a broker that
fails, still records the one `Reply` publish attempt. -/
theorem help_publishes_fixed_text_witness :
    extract_chat_id helpPayload = some 7 ∧
    receive_message alwaysFail helpPayload =
      ((if alwaysFail "Reply" { chat_id := 7, text := helpMessageText } then Status.ok
        else Status.internalServerError),
       [("Reply", { chat_id := 7, text := helpMessageText })]) :=
  ⟨by decide, help_publishes_fixed_text alwaysFail helpPayload 7 (by decide) rfl rfl⟩

/-- C7: every no-op shape — a caption other than `/readimage`, or
captionless text matching neither `/help` nor the `/songlinks` prefix,
or neither caption nor text — yields `OK` with no publish. -/
theorem noop_returns_ok_no_publish (broker : Broker) (payload : Json) (chat_id : Int)
    (hid : extract_chat_id payload = some chat_id)
    (hnoop :
      (∃ c, extract_caption payload = some c ∧ c ≠ "/readimage") ∨
      (extract_caption payload = none ∧
        ∃ t, extract_text payload = some t ∧ t ≠ "/help" ∧
          rustStartsWith t "/songlinks" = false) ∨
      (extract_caption payload = none ∧ extract_text payload = none)) :
    receive_message broker payload = (Status.ok, []) := by
  rcases hnoop with ⟨c, hc, hne⟩ | ⟨hc, t, ht, hne, hsl⟩ | ⟨hc, ht⟩
  · simp [receive_message, hid, hc, hne]
  · simp [receive_message, hid, hc, ht, hne, hsl]
  · simp [receive_message, hid, hc, ht]

/-- Witness for C7: the unrecognized text `hello` from chat 3 is
silently ignored. -/
theorem noop_returns_ok_no_publish_witness :
    receive_message alwaysOk plainTextPayload = (Status.ok, []) :=
  noop_returns_ok_no_publish alwaysOk plainTextPayload 3 (by decide)
    (Or.inr (Or.inl ⟨rfl, "hello", rfl, by decide, by decide⟩))

/-- Counterexample to C2 as stated: a `/readimage` payload whose photo
array is non-empty but has no selectable width (no element carries an
integer `width`) is NOT rejected — the width defaults to 0 via
`unwrap_or(0)` and the element's `file_id` is published. -/
theorem readimage_no_width_still_published :
    extract_chat_id noWidthPayload = some 1 ∧
    extract_caption noWidthPayload = some "/readimage" ∧
    ((noWidthPayload.get "message").get "photo").as_array = some [photoNoWidth] ∧
    (photoNoWidth.get "width").as_i64 = none ∧
    receive_message alwaysOk noWidthPayload =
      (Status.ok, [("ImageToText", { chat_id := 1, text := "abc" })]) :=
  ⟨by decide, by decide, rfl, by decide, by decide⟩

/-- C2 (amended): with a valid chat id and caption `/readimage`, when
no image reference is resolvable — the photo field is absent or not an
array, or the array is empty, or no `file_id` string is extractable
from it — the request is rejected with `BAD_REQUEST` and nothing is
published. -/
theorem readimage_unresolvable_rejected (broker : Broker) (payload : Json) (chat_id : Int)
    (hid : extract_chat_id payload = some chat_id)
    (hcap : extract_caption payload = some "/readimage")
    (hun : ((payload.get "message").get "photo").as_array = none ∨
           ((payload.get "message").get "photo").as_array = some [] ∨
           extract_largest_image_file_id payload = none) :
    receive_message broker payload = (Status.badRequest, []) := by
  have hnone : extract_largest_image_file_id payload = none := by
    rcases hun with h | h | h
    · simp [extract_largest_image_file_id, h]
    · simp [extract_largest_image_file_id, h, maxByKey]
    · exact h
  simp [receive_message, hid, hcap, handle_readimage, hnone, finishWith]

/-- Witness for C2 (amended): the empty photo array from chat 1 is
rejected with no publish. -/
theorem readimage_unresolvable_rejected_witness :
    receive_message alwaysOk emptyPhotoPayload = (Status.badRequest, []) :=
  readimage_unresolvable_rejected alwaysOk emptyPhotoPayload 1 (by decide) (by decide)
    (Or.inr (Or.inl rfl))

/-- C3: with a valid chat id, no caption, and text with the
`/songlinks` prefix whose lines are `cmdLine :: rest` (`rest` has `N`
lines), the request publishes to `Music` a text that drops the command
line, keeps the first `min N 10` following lines in order, truncates
each to at most 50 characters, and joins them with newlines; `N = 0`
publishes the empty string rather than failing. -/
theorem songlinks_builds_truncated_text (broker : Broker) (payload : Json) (chat_id : Int)
    (text cmdLine : String) (rest : List String)
    (hid : extract_chat_id payload = some chat_id)
    (hcap : extract_caption payload = none)
    (htext : extract_text payload = some text)
    (hsl : rustStartsWith text "/songlinks" = true)
    (hlines : rustLines text = cmdLine :: rest) :
    receive_message broker payload =
      ((if broker "Music"
            { chat_id := chat_id,
              text := String.intercalate "\n" ((rest.take 10).map (takeChars 50)) }
        then Status.ok else Status.internalServerError),
       [("Music",
         { chat_id := chat_id,
           text := String.intercalate "\n" ((rest.take 10).map (takeChars 50)) })]) ∧
    ((rest.take 10).map (takeChars 50)).length = min rest.length 10 ∧
    (∀ line ∈ (rest.take 10).map (takeChars 50), line.length ≤ 50) ∧
    (rest = [] → String.intercalate "\n" ((rest.take 10).map (takeChars 50)) = "") := by
  have hne : text ≠ "/help" := by
    intro h
    rw [h] at hsl
    exact absurd hsl (by decide)
  refine ⟨?_, ?_, ?_, ?_⟩
  · by_cases hb : broker "Music"
        { chat_id := chat_id,
          text := String.intercalate "\n" ((rest.take 10).map (takeChars 50)) } = true
    · rw [List.map_take] at hb
      simp [receive_message, hid, hcap, htext, hne, hsl, handle_songlinks, hlines,
        publish_to_queue, finishWith, hb]
    · simp only [Bool.not_eq_true] at hb
      rw [List.map_take] at hb
      simp [receive_message, hid, hcap, htext, hne, hsl, handle_songlinks, hlines,
        publish_to_queue, finishWith, hb]
  · simp [List.length_take, Nat.min_comm]
  · intro line hline
    obtain ⟨l, _, hfa⟩ := List.mem_map.mp hline
    have hlen : (takeChars 50 l).length = (l.toList.take 50).length := rfl
    rw [← hfa, hlen]
    exact List.length_take_le 50 l.toList
  · intro h
    rw [h]
    rfl

/-- Witness for C3: the two-song payload from chat 7 publishes both
lines joined by a newline to the `Music` queue. -/
theorem songlinks_builds_truncated_text_witness :
    receive_message alwaysOk songPayload =
      (Status.ok, [("Music", { chat_id := 7, text := "song one\nsong two" })]) := by
  have h := songlinks_builds_truncated_text alwaysOk songPayload 7
    "/songlinks\nsong one\nsong two" "/songlinks" ["song one", "song two"]
    (by decide) rfl rfl (by decide) (by decide)
  rw [h.1]
  decide

/-- Rust's `max_by_key` keeps the later element on key ties, so the
fold over `x :: xs` lands on an element that no earlier element
exceeds and every later element is strictly below. -/
theorem foldl_maxStep_last_max (f : Json → Int) (xs : List Json) :
    ∀ x : Json, ∃ l1 l2,
      x :: xs = l1 ++ xs.foldl (maxStep f) x :: l2 ∧
      (∀ q ∈ l1, f q ≤ f (xs.foldl (maxStep f) x)) ∧
      (∀ q ∈ l2, f q < f (xs.foldl (maxStep f) x)) := by
  induction xs with
  | nil =>
    intro x
    exact ⟨[], [], rfl, by simp, by simp⟩
  | cons y ys ih =>
    intro x
    have hfold : (y :: ys).foldl (maxStep f) x = ys.foldl (maxStep f) (maxStep f x y) := rfl
    by_cases hc : f y < f x
    · have hxy : maxStep f x y = x := by simp [maxStep, hc]
      obtain ⟨l1, l2, hdec, hle, hlt⟩ := ih x
      rw [hfold, hxy]
      cases l1 with
      | nil =>
        simp only [List.nil_append] at hdec
        injection hdec with hx hys
        refine ⟨[], y :: ys, ?_, by simp, ?_⟩
        · simp only [List.nil_append]
          rw [← hx]
        intro q hq
        rcases List.mem_cons.mp hq with h | h
        · rw [h, ← hx]
          exact hc
        · rw [hys] at h
          exact hlt q h
      | cons a t =>
        simp only [List.cons_append] at hdec
        injection hdec with hax hys
        have hmem_a : x ∈ a :: t := by
          rw [← hax]
          exact List.mem_cons_self x t
        refine ⟨x :: y :: t, l2, ?_, ?_, hlt⟩
        · simp only [List.cons_append]
          rw [← hys]
        · intro q hq
          rcases List.mem_cons.mp hq with h | h
          · rw [h]
            exact hle x hmem_a
          rcases List.mem_cons.mp h with h2 | h2
          · rw [h2]
            exact le_trans (le_of_lt hc) (hle x hmem_a)
          · exact hle q (List.mem_cons_of_mem a h2)
    · have hxy : maxStep f x y = y := by simp [maxStep, hc]
      have hxle : f x ≤ f y := le_of_not_lt hc
      obtain ⟨l1, l2, hdec, hle, hlt⟩ := ih y
      rw [hfold, hxy]
      have hym : f y ≤ f (ys.foldl (maxStep f) y) := by
        cases l1 with
        | nil =>
          simp only [List.nil_append] at hdec
          injection hdec with hy _
          rw [← hy]
        | cons a t =>
          simp only [List.cons_append] at hdec
          injection hdec with hay _
          refine hle y ?_
          rw [← hay]
          exact List.mem_cons_self y t
      refine ⟨x :: l1, l2, ?_, ?_, hlt⟩
      · rw [List.cons_append, ← hdec]
      · intro q hq
        rcases List.mem_cons.mp hq with h | h
        · rw [h]
          exact le_trans hxle hym
        · exact hle q h

/-- Counterexample to C1 as stated: two photo variants tie on width,
and the selected file id is the second one, not the first. -/
theorem readimage_tie_picks_last_not_first :
    extract_caption tiePayload = some "/readimage" ∧
    ((tiePayload.get "message").get "photo").as_array = some [photoFirst, photoSecond] ∧
    widthKey photoFirst = widthKey photoSecond ∧
    (photoFirst.get "file_id").as_str = some "first" ∧
    extract_largest_image_file_id tiePayload = some "second" ∧
    extract_largest_image_file_id tiePayload ≠ (photoFirst.get "file_id").as_str :=
  ⟨by decide, rfl, by decide, by decide, by decide, by decide⟩

/-- C1 (amended): on a payload whose `message.photo` is a non-empty
array, `extract_largest_image_file_id` reads the `file_id` of an
element of maximal width (missing widths count as 0); when several
elements tie on the maximal width, the LAST such element in array order
is chosen — `max_by_key` returns the last maximal element. -/
theorem extract_largest_selects_last_max (payload : Json) (photos : List Json)
    (_hcap : extract_caption payload = some "/readimage")
    (hphoto : (payload.get "message").get "photo" = Json.arr photos)
    (hne : photos ≠ []) :
    ∃ l1 chosen l2, photos = l1 ++ chosen :: l2 ∧
      extract_largest_image_file_id payload = (chosen.get "file_id").as_str ∧
      (∀ q ∈ l1, widthKey q ≤ widthKey chosen) ∧
      (∀ q ∈ l2, widthKey q < widthKey chosen) := by
  cases photos with
  | nil => exact absurd rfl hne
  | cons x xs =>
    obtain ⟨l1, l2, hdec, hle, hlt⟩ := foldl_maxStep_last_max widthKey xs x
    refine ⟨l1, xs.foldl (maxStep widthKey) x, l2, hdec, ?_, hle, hlt⟩
    simp [extract_largest_image_file_id, hphoto, Json.as_array, maxByKey]

/-- Witness for C1 (amended): on the width-tied payload the chosen
element is the second variant, whose neighbours satisfy the stated
bounds. -/
theorem extract_largest_selects_last_max_witness :
    ∃ l1 chosen l2, [photoFirst, photoSecond] = l1 ++ chosen :: l2 ∧
      extract_largest_image_file_id tiePayload = (chosen.get "file_id").as_str ∧
      (∀ q ∈ l1, widthKey q ≤ widthKey chosen) ∧
      (∀ q ∈ l2, widthKey q < widthKey chosen) :=
  extract_largest_selects_last_max tiePayload [photoFirst, photoSecond]
    (by decide) rfl (by simp)

/-- Peeling `runCalls` from the back: the state after `n + 1` calls is
one `cycleNext` step past the state after `n` calls. -/
theorem runCalls_succ_shift {α : Type} (n : Nat) :
    ∀ it : CycleIter α, runCalls it (n + 1) = (cycleNext (runCalls it n)).2 := by
  induction n with
  | zero => intro it; rfl
  | succ n ih =>
    intro it
    have h1 : runCalls it (n + 2) = runCalls (cycleNext it).2 (n + 1) := rfl
    rw [h1, ih (cycleNext it).2]
    rfl

/-- Within one pass, `n ≤ length` calls just drop `n` elements of the
current pass. -/
theorem runCalls_drop {α : Type} (orig : List α) (n : Nat) :
    ∀ l : List α, n ≤ l.length →
      runCalls (CycleIter.mk orig l) n = CycleIter.mk orig (l.drop n) := by
  induction n with
  | zero => intro l _; rfl
  | succ n ih =>
    intro l hl
    cases l with
    | nil => exact absurd hl (by simp)
    | cons x rest =>
      have h1 : runCalls (CycleIter.mk orig (x :: rest)) (n + 1)
          = runCalls (CycleIter.mk orig rest) n := rfl
      rw [h1, ih rest (Nat.le_of_succ_le_succ hl), List.drop_succ_cons]

/-- Within the first pass, call `n + 1` yields element `n` of the pool
list. -/
theorem callResult_lt {α : Type} (l : List α) (n : Nat) (h : n < l.length) :
    callResult (channelPoolNew l) n = l[n]? := by
  unfold callResult channelPoolNew
  rw [runCalls_drop l n l (le_of_lt h), List.drop_eq_getElem_cons h]
  simp [cycleNext, List.getElem?_eq_getElem h]

/-- An exhausted pass behaves exactly like a fresh pass: `Cycle::next`
restarts from the cloned original iterator. -/
theorem callResult_restart {α : Type} (x : α) (rest : List α) (n : Nat) :
    callResult (CycleIter.mk (x :: rest) []) n
      = callResult (channelPoolNew (x :: rest)) n := by
  cases n with
  | zero => rfl
  | succ n =>
    have h1 : callResult (CycleIter.mk (x :: rest) []) (n + 1)
        = callResult (CycleIter.mk (x :: rest) rest) n := rfl
    have h2 : callResult (channelPoolNew (x :: rest)) (n + 1)
        = callResult (CycleIter.mk (x :: rest) rest) n := rfl
    rw [h1, h2]

/-- `runCalls` is additive: `m + n` calls are `n` calls then `m`
calls. -/
theorem runCalls_add {α : Type} (m : Nat) :
    ∀ (n : Nat) (it : CycleIter α),
      runCalls it (m + n) = runCalls (runCalls it n) m := by
  intro n
  induction n with
  | zero => intro it; rfl
  | succ n ih =>
    intro it
    have h1 : runCalls it (m + (n + 1)) = runCalls (cycleNext it).2 (m + n) := rfl
    rw [h1, ih (cycleNext it).2]
    rfl

/-- Period `length` of the call sequence on a non-empty pool. -/
theorem callResult_add_length {α : Type} (l : List α) (hne : l ≠ []) (n : Nat) :
    callResult (channelPoolNew l) (n + l.length) = callResult (channelPoolNew l) n := by
  cases l with
  | nil => exact absurd rfl hne
  | cons x rest =>
    have h1 : callResult (channelPoolNew (x :: rest)) (n + (x :: rest).length)
        = callResult (runCalls (channelPoolNew (x :: rest)) (x :: rest).length) n := by
      unfold callResult
      rw [runCalls_add n (x :: rest).length]
    rw [h1]
    unfold channelPoolNew
    rw [runCalls_drop (x :: rest) (x :: rest).length (x :: rest) (le_refl _),
      List.drop_length]
    exact callResult_restart x rest n

/-- Master formula: on a non-empty pool, call `n + 1` yields the pool
element at index `n % length`. -/
theorem callResult_mod {α : Type} (l : List α) (hne : l ≠ []) :
    ∀ n : Nat, callResult (channelPoolNew l) n = l[n % l.length]? := by
  intro n
  induction n using Nat.strong_induction_on with
  | _ n ih =>
    by_cases h : n < l.length
    · rw [Nat.mod_eq_of_lt h]
      exact callResult_lt l n h
    · push_neg at h
      have hK : 0 < l.length := List.length_pos.mpr hne
      have hsub : n - l.length + l.length = n := Nat.sub_add_cancel h
      have hper := callResult_add_length l hne (n - l.length)
      rw [hsub] at hper
      rw [hper, ih (n - l.length) (by omega), Nat.mod_eq_sub_mod h]

/-- C5: on a pool built from `K = l.length ≥ 1` handles, the first `K`
calls return handles `0, 1, …, K-1` in order (each exactly once), and
call `K + 1` returns the same handle as call 1. -/
theorem pool_round_robin {α : Type} (l : List α) (hne : l ≠ []) :
    (∀ i, (h : i < l.length) → callResult (channelPoolNew l) i = some l[i]) ∧
    callResult (channelPoolNew l) l.length = callResult (channelPoolNew l) 0 := by
  constructor
  · intro i h
    rw [callResult_mod l hne i, Nat.mod_eq_of_lt h]
    exact List.getElem?_eq_getElem h
  · rw [callResult_mod l hne, callResult_mod l hne]
    simp

/-- Witness for C5: a pool of three handles cycles 10, 20, 30, 10. -/
theorem pool_round_robin_witness :
    callResult (channelPoolNew [10, 20, 30]) 0 = some 10 ∧
    callResult (channelPoolNew [10, 20, 30]) 1 = some 20 ∧
    callResult (channelPoolNew [10, 20, 30]) 2 = some 30 ∧
    callResult (channelPoolNew [10, 20, 30]) 3 = some 10 := by
  have h := pool_round_robin [10, 20, 30] (by simp)
  exact ⟨h.1 0 (by norm_num), h.1 1 (by norm_num), h.1 2 (by norm_num),
    h.2.trans (h.1 0 (by norm_num))⟩

/-- C9: `get_next_channel` never hits its "Channel pool should never be
empty" panic on a pool built from a non-empty handle list: every call,
however late in the cycle, yields a handle. -/
theorem pool_never_fails {α : Type} (l : List α) (hne : l ≠ []) (n : Nat) :
    (callResult (channelPoolNew l) n).isSome = true := by
  rw [callResult_mod l hne n]
  have h : n % l.length < l.length := Nat.mod_lt n (List.length_pos.mpr hne)
  simp [List.getElem?_eq_getElem h]

/-- Witness for C9: the 6th call on a one-handle pool still succeeds. -/
theorem pool_never_fails_witness :
    (callResult (channelPoolNew [0]) 5).isSome = true :=
  pool_never_fails [0] (by simp) 5

/-- Evaluating `finishWith` over a publish attempt: success maps to
`OK`, failure to `INTERNAL_SERVER_ERROR`, and the attempt is logged
either way. -/
theorem finishWith_publish (broker : Broker) (q : String) (m : RabbitMessage) :
    finishWith (publish_to_queue broker q m) =
      ((if broker q m then Status.ok else Status.internalServerError), [(q, m)]) := by
  by_cases hb : broker q m = true
  · simp [publish_to_queue, finishWith, hb]
  · simp only [Bool.not_eq_true] at hb
    simp [publish_to_queue, finishWith, hb]

/-- Exhaustive shape of one dispatch: either a rejection or a no-op
with an empty log, or exactly one logged attempt on one of the three
queues, whose broker outcome decides the status. -/
theorem receive_message_cases (broker : Broker) (payload : Json) :
    receive_message broker payload = (Status.badRequest, []) ∨
    receive_message broker payload = (Status.ok, []) ∨
    ∃ q m, (q = "ImageToText" ∨ q = "Reply" ∨ q = "Music") ∧
      receive_message broker payload =
        ((if broker q m then Status.ok else Status.internalServerError), [(q, m)]) := by
  unfold receive_message
  cases hid : extract_chat_id payload with
  | none => exact Or.inl rfl
  | some chat_id =>
    cases hcap : extract_caption payload with
    | some command =>
      dsimp only
      by_cases hcmd : command = "/readimage"
      · rw [if_pos hcmd]
        cases hext : extract_largest_image_file_id payload with
        | none =>
          left
          simp [handle_readimage, hext, finishWith]
        | some fid =>
          right; right
          refine ⟨"ImageToText", { chat_id := chat_id, text := fid }, Or.inl rfl, ?_⟩
          rw [show handle_readimage broker chat_id payload
              = publish_to_queue broker "ImageToText" { chat_id := chat_id, text := fid } by
            simp [handle_readimage, hext]]
          exact finishWith_publish broker "ImageToText" { chat_id := chat_id, text := fid }
      · rw [if_neg hcmd]
        exact Or.inr (Or.inl rfl)
    | none =>
      cases htext : extract_text payload with
      | none => exact Or.inr (Or.inl rfl)
      | some text =>
        dsimp only
        by_cases hh : text = "/help"
        · rw [if_pos hh]
          right; right
          exact ⟨"Reply", { chat_id := chat_id, text := helpMessageText },
            Or.inr (Or.inl rfl),
            finishWith_publish broker "Reply" { chat_id := chat_id, text := helpMessageText }⟩
        · rw [if_neg hh]
          by_cases hs : rustStartsWith text "/songlinks" = true
          · rw [if_pos hs]
            right; right
            exact ⟨"Music",
              { chat_id := chat_id,
                text := String.intercalate "\n"
                  ((((rustLines text).drop 1).take 10).map (takeChars 50)) },
              Or.inr (Or.inr rfl), finishWith_publish broker "Music" _⟩
          · simp only [Bool.not_eq_true] at hs
            rw [if_neg (by simp [hs])]
            exact Or.inr (Or.inl rfl)

/-- C8: every request makes at most one publish attempt, and when that
single attempt fails at the broker the caller sees
`INTERNAL_SERVER_ERROR` — there is no second submission. -/
theorem publish_failure_single_attempt (broker : Broker) (payload : Json) :
    (receive_message broker payload).2.length ≤ 1 ∧
    ∀ q m, (receive_message broker payload).2 = [(q, m)] → broker q m = false →
      (receive_message broker payload).1 = Status.internalServerError := by
  rcases receive_message_cases broker payload with h | h | ⟨q, m, _, h⟩
  · rw [h]
    exact ⟨by simp, by intro q m hlog; simp at hlog⟩
  · rw [h]
    exact ⟨by simp, by intro q m hlog; simp at hlog⟩
  · rw [h]
    refine ⟨by simp, ?_⟩
    intro q2 m2 hlog hb
    simp only [List.cons.injEq, Prod.mk.injEq] at hlog
    obtain ⟨⟨hq2, hm2⟩, _⟩ := hlog
    rw [← hq2, ← hm2] at hb
    simp [hb]

/-- Witness for C8: the failed `/help` publish surfaces a 500 after its
single logged attempt. -/
theorem publish_failure_single_attempt_witness :
    (receive_message alwaysFail helpPayload).2.length ≤ 1 ∧
    (receive_message alwaysFail helpPayload).1 = Status.internalServerError := by
  have h := publish_failure_single_attempt alwaysFail helpPayload
  exact ⟨h.1, h.2 "Reply" { chat_id := 7, text := helpMessageText } rfl rfl⟩

/-- C10: every dispatch publishes at most once, and any logged attempt
targets one of the queues `ImageToText`, `Reply`, `Music` with a body
that serializes as the two-field object `{ chat_id, text }`. -/
theorem receive_message_publish_shape (broker : Broker) (payload : Json) :
    (receive_message broker payload).2.length ≤ 1 ∧
    ∀ e ∈ (receive_message broker payload).2,
      (e.1 = "ImageToText" ∨ e.1 = "Reply" ∨ e.1 = "Music") ∧
      serializeRabbit e.2 =
        Json.obj [("chat_id", Json.int e.2.chat_id), ("text", Json.str e.2.text)] := by
  rcases receive_message_cases broker payload with h | h | ⟨q, m, hq, h⟩ <;> rw [h]
  · exact ⟨by simp, by simp⟩
  · exact ⟨by simp, by simp⟩
  · refine ⟨by simp, ?_⟩
    intro e he
    simp only [List.mem_singleton] at he
    rw [he]
    exact ⟨hq, rfl⟩

/-- Witness for C10: the successful `/help` dispatch logs one attempt,
on the `Reply` queue. -/
theorem receive_message_publish_shape_witness :
    (receive_message alwaysOk helpPayload).2.length ≤ 1 ∧
    (("Reply", RabbitMessage.mk 7 helpMessageText).1 = "ImageToText" ∨
     ("Reply", RabbitMessage.mk 7 helpMessageText).1 = "Reply" ∨
     ("Reply", RabbitMessage.mk 7 helpMessageText).1 = "Music") := by
  have h := receive_message_publish_shape alwaysOk helpPayload
  refine ⟨h.1, (h.2 ("Reply", RabbitMessage.mk 7 helpMessageText) ?_).1⟩
  rw [show (receive_message alwaysOk helpPayload).2
      = [("Reply", RabbitMessage.mk 7 helpMessageText)] from rfl]
  exact List.mem_singleton.mpr rfl

end RustinBot
